import Mathlib

/-!
Shallow embedding of the resume relevance scoring engine
(`backend/models/feature_engineering.py`, `backend/models/relevance_scorer.py`,
`main.py`) and proofs about its scoring, classification, gap-analysis and
batch-matching behaviour.

Modelling conventions:
* Python floats are modelled as rationals (`ℚ`); all constants appearing in the
  code (0.4, 0.75, 0.95, ...) are exactly representable.
* Python `Optional[int]` year counts are `Option ℕ`.
* External library primitives (fuzzywuzzy's `token_sort_ratio` scorer used by
  `process.extractOne`, sklearn's text analyzer, idf weighting and
  `cosine_similarity`, the sentence-transformer `encode`) are parameters,
  bundled in `ExternalLibs`; all control flow and arithmetic of the repository
  itself is embedded directly.
-/

namespace ResumeRelevance

/-! ### Python string containment (`sub in s`) -/

/-- Python's substring test `sub in hay`, on character lists. -/
def listContainsSub (hay sub : List Char) : Bool :=
  match hay with
  | [] => sub.isEmpty
  | c :: t => sub.isPrefixOf (c :: t) || listContainsSub t sub

/-- Python's `sub in s` on strings. -/
def strIn (sub s : String) : Bool :=
  listContainsSub s.data sub.data

/-- Python's `str.lower`, character-wise. (Same as `String.toLower`, but
written with structural recursion so that the kernel can evaluate it; agrees
with CPython on the ASCII skill and education strings the engine compares.) -/
def pyLower (s : String) : String :=
  ⟨s.data.map Char.toLower⟩

/-! ### External library primitives (parameters of the embedding) -/

/-- The similarity primitives the engine imports from third-party libraries.
`fuzzScore` models `fuzz.token_sort_ratio` (a 0-100 integer scale) as applied
by `process.extractOne`; `tokenize` models the sklearn `TfidfVectorizer`
analyzer (lowercasing, stop-word removal, unigram+bigram extraction);
`idf` models the smoothed inverse-document-frequency weight as a function of a
term's document count; `cosine_similarity` models
`sklearn.metrics.pairwise.cosine_similarity` on two vectors (the l2 row
normalisation performed by the vectorizer is absorbed into it, cosine being
scale-invariant); `encode` models `SentenceTransformer.encode`, returning
`none` when the model is unavailable. -/
structure ExternalLibs where
  fuzzScore : String → String → ℕ
  tokenize : String → List String
  idf : ℕ → ℚ
  cosine_similarity : List ℚ → List ℚ → ℚ
  encode : String → Option (List ℚ)

/-! ### Data model -/

/-- The `sections` mapping restricted to the three keys the engine reads
(`relevant_sections = ['experience', 'skills', 'education']`); a key that is
absent from the Python dict is `none`. -/
structure Sections where
  experience : Option String
  skills : Option String
  education : Option String
deriving DecidableEq

/-- Python's falsiness test `not sections` for the section map. (A dict holding
only irrelevant keys is truthy in Python, but on such input both the real code
and this model return score 0, so the collapse is unobservable.) -/
def Sections.isEmptyMap (s : Sections) : Bool :=
  s.experience.isNone && s.skills.isNone && s.education.isNone

/-- A processed profile dict (resume or job description) as consumed through
`.get('skills', [])`, `.get('education', [])`, `.get('experience_years')`,
`.get('cleaned_text', '')` and `.get('sections', {})`: a missing key is
modelled by the corresponding default value. -/
structure ProfileData where
  skills : List String
  education : List String
  experience_years : Option ℕ
  cleaned_text : String
  sections : Sections

/-- The dict returned by `FeatureEngineer.calculate_final_score`. -/
structure FinalScores where
  hard_match_score : ℚ
  soft_match_score : ℚ
  final_score : ℚ
  relevance_percentage : ℚ
deriving DecidableEq

/-- The `feature_scores` dict consumed by
`RelevanceScorer.calculate_relevance_score` via `.get(key, 0.0)`; `none`
models an absent key. -/
structure FeatureScores where
  final_score : Option ℚ
  hard_match_score : Option ℚ
  soft_match_score : Option ℚ

/-- The dict returned by `RelevanceScorer.calculate_relevance_score`. -/
structure RelevanceResult where
  relevance_score : ℚ
  verdict : String
  hard_match_score : ℚ
  soft_match_score : ℚ
  final_score : ℚ

/-- The dict returned by `RelevanceScorer.check_experience_gap`. -/
structure ExperienceAnalysis where
  gap : ℤ
  meets_requirement : Bool
  message : String
deriving DecidableEq

/-! ### FeatureEngineer (`backend/models/feature_engineering.py`) -/

namespace FeatureEngineer

/-- Score of the best match `process.extractOne(jd_skill, resume_skills,
scorer=fuzz.token_sort_ratio)` finds; `0` when there are no choices. -/
def bestMatchScore (L : ExternalLibs) (jd_skill : String) (resume_skills : List String) : ℕ :=
  (resume_skills.map fun resume_skill => L.fuzzScore jd_skill resume_skill).foldl max 0

/-- The 80-point threshold test `best_match[1] >= 80` of `hard_match_skills`. -/
def skillMatched (L : ExternalLibs) (resume_skills : List String) (jd_skill : String) : Bool :=
  decide (80 ≤ bestMatchScore L jd_skill resume_skills)

/-- `FeatureEngineer.hard_match_skills`. -/
def hardMatchSkills (L : ExternalLibs) (resume_skills jd_skills : List String) : ℚ :=
  if resume_skills = [] ∨ jd_skills = [] then 0
  else
    let total_jd_skills := jd_skills.length
    let total_matches : ℕ :=
      jd_skills.foldl (fun acc jd_skill => if skillMatched L resume_skills jd_skill then acc + 1 else acc) 0
    if 0 < total_jd_skills then (total_matches : ℚ) / (total_jd_skills : ℚ) else 0

/-- `FeatureEngineer.hard_match_education`. -/
def hardMatchEducation (resume_education jd_education : List String) : ℚ :=
  if resume_education = [] ∨ jd_education = [] then 0
  else
    let resume_edu_lower := resume_education.map pyLower
    let jd_edu_lower := jd_education.map pyLower
    let match_count := jd_edu_lower.countP fun jd_edu =>
      resume_edu_lower.any fun resume_edu => strIn jd_edu resume_edu || strIn resume_edu jd_edu
    if jd_education ≠ [] then (match_count : ℚ) / (jd_education.length : ℚ) else 0

/-- `FeatureEngineer.hard_match_experience`. -/
def hardMatchExperience (resume_years jd_years : Option ℕ) : ℚ :=
  match resume_years, jd_years with
  | some resume_y, some jd_y =>
    if resume_y ≥ jd_y then 1 else (resume_y : ℚ) / (jd_y : ℚ)
  | _, _ => 0

/-- Document count of a term over the two-document corpus
`[resume_text, jd_text]` the vectorizer is fitted on. -/
def docCount (tok : String → List String) (d0 d1 : String) (term : String) : ℕ :=
  (if term ∈ tok d0 then 1 else 0) + (if term ∈ tok d1 then 1 else 0)

/-- The vocabulary `TfidfVectorizer(max_features=5000, stop_words='english',
ngram_range=(1,2), min_df=1, max_df=0.95)` retains when fitted on the
two-document corpus: terms with document count `dc` satisfying `min_df ≤ dc`
and `dc ≤ max_df * n_docs = 0.95 * 2`. (The 5000-term cap cannot bind a
two-document pairwise vocabulary below this filter's result only by dropping
lowest-frequency terms; it is immaterial to every property proved here and is
omitted.) -/
def buildVocabulary (tok : String → List String) (d0 d1 : String) : List String :=
  ((tok d0 ++ tok d1).dedup).filter fun term =>
    let dc := docCount tok d0 d1 term
    decide (1 ≤ dc) && decide ((dc : ℚ) ≤ 0.95 * 2)

/-- The tf-idf row of document `d` of the corpus `[d0, d1]`: term frequency
times idf weight, per vocabulary term. -/
def tfidfRow (L : ExternalLibs) (d0 d1 d : String) : List ℚ :=
  (buildVocabulary L.tokenize d0 d1).map fun term =>
    ((L.tokenize d).count term : ℚ) * L.idf (docCount L.tokenize d0 d1 term)

/-- `FeatureEngineer.hard_match_keywords`: fit the vectorizer on the pair of
texts and take the cosine similarity of the two rows. When every term is
pruned (or there are no terms at all) `fit_transform` raises a `ValueError`,
the `except` branch logs it and the function returns `0.0`. -/
def hardMatchKeywords (L : ExternalLibs) (resume_text jd_text : String) : ℚ :=
  let vocab := buildVocabulary L.tokenize resume_text jd_text
  if vocab = [] then 0
  else
    L.cosine_similarity (tfidfRow L resume_text jd_text resume_text)
      (tfidfRow L resume_text jd_text jd_text)

/-- `FeatureEngineer.get_embedding`: `None` for blank text or an unavailable
model (the latter folded into the `encode` parameter); caching is
value-irrelevant and omitted. -/
def getEmbedding (L : ExternalLibs) (text : String) : Option (List ℚ) :=
  if text.trim = "" then none else L.encode text

/-- `FeatureEngineer.soft_match_semantic`. -/
def softMatchSemantic (L : ExternalLibs) (resume_text jd_text : String) : ℚ :=
  match getEmbedding L resume_text, getEmbedding L jd_text with
  | some resume_embedding, some jd_embedding =>
    L.cosine_similarity resume_embedding jd_embedding
  | _, _ => 0

/-- `FeatureEngineer.soft_match_sections`: average the semantic score over the
relevant sections present in both maps. -/
def softMatchSections (L : ExternalLibs) (resume_sections jd_sections : Sections) : ℚ :=
  if resume_sections.isEmptyMap || jd_sections.isEmptyMap then 0
  else
    let paired := [(resume_sections.experience, jd_sections.experience),
                   (resume_sections.skills, jd_sections.skills),
                   (resume_sections.education, jd_sections.education)]
    let section_scores := paired.filterMap fun p =>
      match p.1, p.2 with
      | some resume_sec, some jd_sec => some (softMatchSemantic L resume_sec jd_sec)
      | _, _ => none
    if section_scores.isEmpty then 0
    else section_scores.sum / (section_scores.length : ℚ)

/-- The keys of the `weights` dict of `calculate_hard_match_score`, in
insertion order. -/
inductive HardKey
  | skills
  | education
  | experience
  | keywords
deriving DecidableEq

/-- `weights = {'skills': 0.4, 'education': 0.2, 'experience': 0.2,
'keywords': 0.2}`. -/
def weights : HardKey → ℚ
  | .skills => 0.4
  | .education => 0.2
  | .experience => 0.2
  | .keywords => 0.2

/-- The `scores` dict of `calculate_hard_match_score`. -/
def componentScores (L : ExternalLibs) (resume_data jd_data : ProfileData) : HardKey → ℚ
  | .skills => hardMatchSkills L resume_data.skills jd_data.skills
  | .education => hardMatchEducation resume_data.education jd_data.education
  | .experience => hardMatchExperience resume_data.experience_years jd_data.experience_years
  | .keywords => hardMatchKeywords L resume_data.cleaned_text jd_data.cleaned_text

/-- Iteration order of `for key in weights`. -/
def hardKeys : List HardKey := [.skills, .education, .experience, .keywords]

/-- `FeatureEngineer.calculate_hard_match_score`:
`min(sum(weights[key] * scores[key] for key in weights), 1.0)`. -/
def calculateHardMatchScore (L : ExternalLibs) (resume_data jd_data : ProfileData) : ℚ :=
  let total_score := (hardKeys.map fun key => weights key * componentScores L resume_data jd_data key).sum
  min total_score 1

/-- `FeatureEngineer.calculate_soft_match_score`. -/
def calculateSoftMatchScore (L : ExternalLibs) (resume_data jd_data : ProfileData) : ℚ :=
  let overall_score := softMatchSemantic L resume_data.cleaned_text jd_data.cleaned_text
  let section_score := softMatchSections L resume_data.sections jd_data.sections
  0.7 * overall_score + 0.3 * section_score

/-- `FeatureEngineer.calculate_final_score`. -/
def calculateFinalScore (L : ExternalLibs) (resume_data jd_data : ProfileData) : FinalScores :=
  let hard_score := calculateHardMatchScore L resume_data jd_data
  let soft_score := calculateSoftMatchScore L resume_data jd_data
  let final_score := 0.6 * hard_score + 0.4 * soft_score
  { hard_match_score := hard_score
    soft_match_score := soft_score
    final_score := final_score
    relevance_percentage := final_score * 100 }

end FeatureEngineer

/-! ### RelevanceScorer (`backend/models/relevance_scorer.py`) -/

namespace RelevanceScorer

/-- `self.thresholds = {'high': 0.75, 'medium': 0.50, 'low': 0.25}`. -/
structure Thresholds where
  high : ℚ
  medium : ℚ
  low : ℚ

/-- Default scoring thresholds set by `RelevanceScorer.__init__`. -/
def thresholds : Thresholds :=
  { high := 0.75, medium := 0.50, low := 0.25 }

/-- `RelevanceScorer.calculate_relevance_score`. -/
def calculateRelevanceScore (feature_scores : FeatureScores) : RelevanceResult :=
  let final_score := feature_scores.final_score.getD 0
  let relevance_percentage := final_score * 100
  let verdict :=
    if final_score ≥ thresholds.high then "High"
    else if final_score ≥ thresholds.medium then "Medium"
    else "Low"
  { relevance_score := relevance_percentage
    verdict := verdict
    hard_match_score := feature_scores.hard_match_score.getD 0
    soft_match_score := feature_scores.soft_match_score.getD 0
    final_score := final_score }

/-- The per-requirement-skill match test of
`RelevanceScorer.identify_missing_skills`: exact match or bidirectional
substring containment, case-folded. -/
def skillCovered (resume_skills : List String) (jd_skill : String) : Bool :=
  resume_skills.any fun resume_skill =>
    pyLower jd_skill == pyLower resume_skill
      || strIn (pyLower jd_skill) (pyLower resume_skill)
      || strIn (pyLower resume_skill) (pyLower jd_skill)

/-- `RelevanceScorer.identify_missing_skills`: collect, in order, the JD
skills no resume skill covers. -/
def identifyMissingSkills (resume_skills jd_skills : List String) : List String :=
  match jd_skills with
  | [] => []
  | jd_skill :: rest =>
    if skillCovered resume_skills jd_skill then identifyMissingSkills resume_skills rest
    else jd_skill :: identifyMissingSkills resume_skills rest

/-- `RelevanceScorer.check_experience_gap`. -/
def checkExperienceGap (resume_years jd_years : Option ℕ) : ExperienceAnalysis :=
  match resume_years, jd_years with
  | some resume_y, some jd_y =>
    let gap : ℤ := (jd_y : ℤ) - (resume_y : ℤ)
    let meets_requirement := decide (resume_y ≥ jd_y)
    let message :=
      if gap > 0 then "Missing " ++ toString gap ++ " years of experience"
      else if gap = 0 then "Meets experience requirement exactly"
      else "Exceeds requirement by " ++ toString gap.natAbs ++ " years"
    { gap := gap, meets_requirement := meets_requirement, message := message }
  | _, _ =>
    { gap := 0, meets_requirement := true, message := "Experience requirements not specified" }

end RelevanceScorer

/-! ### Batch pipeline (`main.py`) -/

namespace Pipeline

/-- `ResumeRelevancePipeline.run_matching`: the nested loop over resumes and
job descriptions. The whole per-pair body (feature scoring, analysis,
persistence, appending the result row) sits in a `try` block; `matchPair`
models it, with `Except.error` standing for a raised exception, on which the
`except` branch logs and `continue`s. -/
def runMatching {α β γ E : Type} (matchPair : α → β → Except E γ)
    (resume_processed : List α) (jd_processed : List β) : List γ :=
  resume_processed.foldl (fun results resume =>
    jd_processed.foldl (fun results jd =>
      match matchPair resume jd with
      | .ok row => results ++ [row]
      | .error _ => results) results) []

/-- All (resume, jd) pairs the loop visits, in visit order. -/
def allPairs {α β : Type} (resume_processed : List α) (jd_processed : List β) : List (α × β) :=
  resume_processed.flatMap fun resume => jd_processed.map fun jd => (resume, jd)

end Pipeline

/-! ### Concrete instances used to exercise the theorems -/

/-- A concrete, fully evaluable instantiation of the external primitives. -/
def sampleLibs : ExternalLibs where
  fuzzScore := fun _ _ => 100
  tokenize := fun s => (s.splitOn " ").filter fun w => decide (w ≠ "")
  idf := fun _ => 1
  cosine_similarity := fun _ _ => 0
  encode := fun _ => none

/-- A concrete candidate profile. -/
def sampleResume : ProfileData where
  skills := ["python", "django"]
  education := ["bachelor computer science"]
  experience_years := some 5
  cleaned_text := "python developer experience"
  sections := { experience := some "5 years python", skills := some "python django", education := none }

/-- A concrete requirement profile. -/
def sampleJD : ProfileData where
  skills := ["python", "aws"]
  education := ["bachelor computer science"]
  experience_years := some 3
  cleaned_text := "looking for python developer"
  sections := { experience := some "3 years python", skills := some "python aws", education := none }

/-- A concrete per-pair matcher for the batch loop that raises on exactly one
of the four (resume, jd) pairs drawn from `[0, 1] × [0, 1]`. -/
def failingPair : ℕ → ℕ → Except String ℕ :=
  fun resume jd => if resume = 1 ∧ jd = 0 then Except.error "matcher raised" else Except.ok (resume + jd)

/-! ### Helper lemmas -/

/-- Counting loop of `hard_match_skills`: a fold that conditionally increments
an accumulator counts the elements satisfying the predicate. -/
lemma foldl_count {α : Type} (p : α → Bool) (l : List α) (n : ℕ) :
    l.foldl (fun acc a => if p a then acc + 1 else acc) n = n + l.countP p := by
  induction l generalizing n with
  | nil => simp
  | cons a t ih => cases h : p a <;> simp [h, ih, List.countP_cons] <;> omega

/-- A fuzzy-match query over an empty choice list scores `0`. -/
lemma skillMatched_nil (L : ExternalLibs) (jd_skill : String) :
    FeatureEngineer.skillMatched L [] jd_skill = false := by
  simp [FeatureEngineer.skillMatched, FeatureEngineer.bestMatchScore]

/-! ### Claim theorems -/

/-- Claim C2: `calculate_relevance_score` assigns verdict `High` iff the final
score is at least 0.75, `Medium` iff it is in `[0.50, 0.75)`, and `Low` iff it
is below 0.50; the boundary scores 0.75 and 0.7499 classify as `High` and
`Medium` respectively. -/
theorem verdict_tier_thresholds :
    (∀ fs : FeatureScores,
      ((RelevanceScorer.calculateRelevanceScore fs).verdict = "High"
          ↔ 0.75 ≤ fs.final_score.getD 0)
      ∧ ((RelevanceScorer.calculateRelevanceScore fs).verdict = "Medium"
          ↔ 0.50 ≤ fs.final_score.getD 0 ∧ fs.final_score.getD 0 < 0.75)
      ∧ ((RelevanceScorer.calculateRelevanceScore fs).verdict = "Low"
          ↔ fs.final_score.getD 0 < 0.50))
    ∧ (RelevanceScorer.calculateRelevanceScore ⟨some 0.75, none, none⟩).verdict = "High"
    ∧ (RelevanceScorer.calculateRelevanceScore ⟨some 0.7499, none, none⟩).verdict = "Medium" := by
  refine ⟨fun fs => ?_, ?_, ?_⟩
  · have hv : (RelevanceScorer.calculateRelevanceScore fs).verdict
        = if fs.final_score.getD 0 ≥ 0.75 then "High"
          else if fs.final_score.getD 0 ≥ 0.50 then "Medium" else "Low" := rfl
    set x : ℚ := fs.final_score.getD 0 with hxdef
    rcases le_or_lt (0.75 : ℚ) x with h1 | h1
    · rw [hv, if_pos h1]
      refine ⟨⟨fun _ => h1, fun _ => rfl⟩, ⟨fun h => ?_, fun h => ?_⟩, ⟨fun h => ?_, fun h => ?_⟩⟩
      · exact absurd h (by decide)
      · exact absurd h1 (not_le.mpr h.2)
      · exact absurd h (by decide)
      · exact absurd h1 (not_le.mpr (h.trans_le (by norm_num)))
    · rcases le_or_lt (0.50 : ℚ) x with h2 | h2
      · rw [hv, if_neg (not_le.mpr h1), if_pos h2]
        refine ⟨⟨fun h => ?_, fun h => ?_⟩, ⟨fun _ => ⟨h2, h1⟩, fun _ => rfl⟩, ⟨fun h => ?_, fun h => ?_⟩⟩
        · exact absurd h (by decide)
        · exact absurd h h1.not_le
        · exact absurd h (by decide)
        · exact absurd h h2.not_lt
      · rw [hv, if_neg (not_le.mpr h1), if_neg (not_le.mpr h2)]
        refine ⟨⟨fun h => ?_, fun h => ?_⟩, ⟨fun h => ?_, fun h => ?_⟩, ⟨fun _ => h2, fun _ => rfl⟩⟩
        · exact absurd h (by decide)
        · exact absurd (h2.trans_le (by norm_num)) h.not_lt
        · exact absurd h (by decide)
        · exact absurd h2 h.1.not_lt
  · have : ((0.75 : ℚ) ≥ 0.75) := le_refl _
    simp only [RelevanceScorer.calculateRelevanceScore, RelevanceScorer.thresholds, Option.getD]
    norm_num
  · simp only [RelevanceScorer.calculateRelevanceScore, RelevanceScorer.thresholds, Option.getD]
    norm_num

/-- Claim C4: `hard_match_experience` scores 0.0 when either years value is
`None`; with both given it scores 1.0 when the candidate meets the requirement
and `candidate_years / required_years` otherwise; in particular (5, 3) scores
exactly 1.0 and (2, 4) scores exactly 0.5. -/
theorem experience_score_policy :
    (∀ jd_years, FeatureEngineer.hardMatchExperience none jd_years = 0)
    ∧ (∀ resume_years, FeatureEngineer.hardMatchExperience resume_years none = 0)
    ∧ (∀ resume_y jd_y : ℕ, FeatureEngineer.hardMatchExperience (some resume_y) (some jd_y)
        = if jd_y ≤ resume_y then 1 else (resume_y : ℚ) / (jd_y : ℚ))
    ∧ FeatureEngineer.hardMatchExperience (some 5) (some 3) = 1
    ∧ FeatureEngineer.hardMatchExperience (some 2) (some 4) = 0.5 := by
  refine ⟨fun jd_years => ?_, fun resume_years => ?_, fun resume_y jd_y => rfl, ?_, ?_⟩
  · cases jd_years <;> rfl
  · cases resume_years <;> rfl
  · norm_num [FeatureEngineer.hardMatchExperience]
  · norm_num [FeatureEngineer.hardMatchExperience]

/-- Claim C6 counterexample: at candidate 5 years versus requirement 3 years,
`check_experience_gap` reports `gap = -2`, not the claimed
`max(0, required - candidate) = 0`. -/
theorem experience_gap_not_clamped :
    (RelevanceScorer.checkExperienceGap (some 5) (some 3)).gap = -2
    ∧ (RelevanceScorer.checkExperienceGap (some 5) (some 3)).gap ≠ max 0 ((3 : ℤ) - 5) := by
  exact ⟨rfl, by decide⟩

/-- Claim C6 (amended): for specified years the record has
`gap = required_years - candidate_years` as a signed integer (negative when
the candidate exceeds the requirement), and
`meets_requirement = (candidate_years ≥ required_years)`. -/
theorem experience_gap_signed (resume_y jd_y : ℕ) :
    (RelevanceScorer.checkExperienceGap (some resume_y) (some jd_y)).gap
        = (jd_y : ℤ) - (resume_y : ℤ)
    ∧ ((RelevanceScorer.checkExperienceGap (some resume_y) (some jd_y)).meets_requirement = true
        ↔ jd_y ≤ resume_y) := by
  exact ⟨rfl, by simp [RelevanceScorer.checkExperienceGap]⟩

/-- Claim C7: `identify_missing_skills` returns exactly the requirement skills
no candidate skill covers under the case-folded equality-or-bidirectional-
containment rule, in requirement order; `{python, docker}` against `{python}`
yields `[docker]`. -/
theorem missing_skills_substring_rule :
    (∀ resume_skills jd_skills : List String,
      RelevanceScorer.identifyMissingSkills resume_skills jd_skills
        = jd_skills.filter fun jd_skill => !RelevanceScorer.skillCovered resume_skills jd_skill)
    ∧ RelevanceScorer.identifyMissingSkills ["python"] ["python", "docker"] = ["docker"] := by
  have main : ∀ resume_skills jd_skills : List String,
      RelevanceScorer.identifyMissingSkills resume_skills jd_skills
        = jd_skills.filter fun jd_skill => !RelevanceScorer.skillCovered resume_skills jd_skill := by
    intro rs js
    induction js with
    | nil => rfl
    | cons j rest ih =>
      rw [RelevanceScorer.identifyMissingSkills, List.filter_cons]
      cases h : RelevanceScorer.skillCovered rs j <;> simp [h, ih]
  exact ⟨main, by decide⟩

/-- Claim C10: with either years value unspecified, `check_experience_gap`
returns the fixed neutral record (gap 0, requirement met, literal message) —
even when only the candidate's value is missing — while
`hard_match_experience` scores the same inputs 0.0. -/
theorem experience_gap_unspecified_neutral (resume_years jd_years : Option ℕ)
    (h : resume_years = none ∨ jd_years = none) :
    RelevanceScorer.checkExperienceGap resume_years jd_years
        = { gap := 0, meets_requirement := true, message := "Experience requirements not specified" }
    ∧ FeatureEngineer.hardMatchExperience resume_years jd_years = 0 := by
  rcases h with h | h
  · subst h; cases jd_years <;> exact ⟨rfl, rfl⟩
  · subst h; cases resume_years <;> exact ⟨rfl, rfl⟩

/-- Witness for C10 at the contrast case the claim singles out: the candidate
years missing while the requirement asks for 4. -/
theorem experience_gap_unspecified_neutral_witness :
    RelevanceScorer.checkExperienceGap none (some 4)
        = { gap := 0, meets_requirement := true, message := "Experience requirements not specified" }
    ∧ FeatureEngineer.hardMatchExperience none (some 4) = 0 :=
  experience_gap_unspecified_neutral none (some 4) (Or.inl rfl)

/-- Claim C5: `hard_match_skills` counts a requirement skill as matched iff
its best fuzzy-ratio match among the candidate skills scores at least 80, and
returns `matched_count / |requirement_skills|`; an empty requirement skill set
scores 0.0 regardless of the candidate's skills. -/
theorem skill_score_fuzzy_threshold (L : ExternalLibs) (resume_skills jd_skills : List String) :
    FeatureEngineer.hardMatchSkills L resume_skills jd_skills
        = (jd_skills.countP (FeatureEngineer.skillMatched L resume_skills) : ℚ)
            / (jd_skills.length : ℚ)
    ∧ FeatureEngineer.hardMatchSkills L resume_skills [] = 0 := by
  constructor
  · by_cases hr : resume_skills = []
    · subst hr
      have hc : jd_skills.countP (FeatureEngineer.skillMatched L []) = 0 := by
        rw [List.countP_eq_zero]
        intro a _
        simp [skillMatched_nil]
      rw [hc]
      simp [FeatureEngineer.hardMatchSkills]
    · by_cases hj : jd_skills = []
      · subst hj
        simp [FeatureEngineer.hardMatchSkills]
      · have hlen : 0 < jd_skills.length := List.length_pos.mpr hj
        rw [FeatureEngineer.hardMatchSkills, if_neg (by simp [hr, hj])]
        simp [foldl_count, hlen]
  · simp [FeatureEngineer.hardMatchSkills]

/-- The pairwise `TfidfVectorizer` fit of `hard_match_keywords` prunes every
term when the two documents are identical: each term then occurs in both
documents, its document frequency 1.0 exceeds `max_df = 0.95`, and the
vocabulary comes out empty. -/
lemma buildVocabulary_self (tok : String → List String) (text : String) :
    FeatureEngineer.buildVocabulary tok text text = [] := by
  rw [FeatureEngineer.buildVocabulary, List.filter_eq_nil_iff]
  intro term hterm
  have ht : term ∈ tok text := by
    rcases List.mem_append.mp (List.mem_dedup.mp hterm) with h | h <;> exact h
  have hdc : FeatureEngineer.docCount tok text text term = 2 := by
    simp [FeatureEngineer.docCount, ht]
  simp only [hdc]
  norm_num

/-- Claim C8 (keyword half, evaluated at the failing input): comparing any
text with itself through `hard_match_keywords` yields 0.0, not ≈ 1.0 — the
pairwise vectorizer prunes all shared terms, `fit_transform` raises, and the
exception handler returns 0.0. -/
theorem keyword_similarity_self_zero :
    (∀ (L : ExternalLibs) (text : String), FeatureEngineer.hardMatchKeywords L text text = 0)
    ∧ FeatureEngineer.hardMatchKeywords sampleLibs "python developer experience"
        "python developer experience" = 0 := by
  have main : ∀ (L : ExternalLibs) (text : String),
      FeatureEngineer.hardMatchKeywords L text text = 0 := by
    intro L text
    rw [FeatureEngineer.hardMatchKeywords]
    simp [buildVocabulary_self]
  exact ⟨main, main _ _⟩

/-- Claim C1: `calculate_final_score` combines the component scores exactly as
stated: hard = min of the 0.4/0.2/0.2/0.2-weighted sum with 1.0, soft =
0.7·overall + 0.3·sections, final = 0.6·hard + 0.4·soft, percentage =
final · 100. -/
theorem final_score_combination (L : ExternalLibs) (resume_data jd_data : ProfileData) :
    (FeatureEngineer.calculateFinalScore L resume_data jd_data).hard_match_score
        = min (0.4 * FeatureEngineer.hardMatchSkills L resume_data.skills jd_data.skills
            + 0.2 * FeatureEngineer.hardMatchEducation resume_data.education jd_data.education
            + 0.2 * FeatureEngineer.hardMatchExperience resume_data.experience_years
                jd_data.experience_years
            + 0.2 * FeatureEngineer.hardMatchKeywords L resume_data.cleaned_text
                jd_data.cleaned_text) 1
    ∧ (FeatureEngineer.calculateFinalScore L resume_data jd_data).soft_match_score
        = 0.7 * FeatureEngineer.softMatchSemantic L resume_data.cleaned_text jd_data.cleaned_text
          + 0.3 * FeatureEngineer.softMatchSections L resume_data.sections jd_data.sections
    ∧ (FeatureEngineer.calculateFinalScore L resume_data jd_data).final_score
        = 0.6 * (FeatureEngineer.calculateFinalScore L resume_data jd_data).hard_match_score
          + 0.4 * (FeatureEngineer.calculateFinalScore L resume_data jd_data).soft_match_score
    ∧ (FeatureEngineer.calculateFinalScore L resume_data jd_data).relevance_percentage
        = (FeatureEngineer.calculateFinalScore L resume_data jd_data).final_score * 100 := by
  refine ⟨?_, rfl, rfl, rfl⟩
  simp only [FeatureEngineer.calculateFinalScore, FeatureEngineer.calculateHardMatchScore,
    FeatureEngineer.hardKeys, FeatureEngineer.weights, FeatureEngineer.componentScores,
    List.map_cons, List.map_nil, List.sum_cons, List.sum_nil]
  congr 1
  ring

/-! ### Bound lemmas for the score invariant -/

/-- A list sum of nonnegative rationals is nonnegative. -/
lemma qsum_nonneg (l : List ℚ) (h : ∀ x ∈ l, 0 ≤ x) : 0 ≤ l.sum := by
  induction l with
  | nil => simp
  | cons a t ih =>
    simp only [List.sum_cons]
    have ha := h a (List.mem_cons_self a t)
    have ht := ih fun x hx => h x (List.mem_cons_of_mem a hx)
    linarith

/-- A list sum of rationals bounded by 1 is at most the list's length. -/
lemma qsum_le_length (l : List ℚ) (h : ∀ x ∈ l, x ≤ 1) : l.sum ≤ (l.length : ℚ) := by
  induction l with
  | nil => simp
  | cons a t ih =>
    simp only [List.sum_cons, List.length_cons]
    have ha := h a (List.mem_cons_self a t)
    have ht := ih fun x hx => h x (List.mem_cons_of_mem a hx)
    push_cast
    linarith

/-- `hard_match_skills` stays in the unit interval. -/
lemma hardMatchSkills_bounds (L : ExternalLibs) (resume_skills jd_skills : List String) :
    0 ≤ FeatureEngineer.hardMatchSkills L resume_skills jd_skills
    ∧ FeatureEngineer.hardMatchSkills L resume_skills jd_skills ≤ 1 := by
  rw [FeatureEngineer.hardMatchSkills]
  by_cases h : resume_skills = [] ∨ jd_skills = []
  · rw [if_pos h]; norm_num
  · rw [if_neg h]
    by_cases hl : 0 < jd_skills.length
    · simp only [foldl_count, Nat.zero_add, if_pos hl]
      have hlc : (0 : ℚ) < (jd_skills.length : ℚ) := by exact_mod_cast hl
      have hcount : ((jd_skills.countP (FeatureEngineer.skillMatched L resume_skills)) : ℚ)
          ≤ (jd_skills.length : ℚ) := by
        exact_mod_cast List.countP_le_length _
      exact ⟨div_nonneg (Nat.cast_nonneg _) (Nat.cast_nonneg _), (div_le_one hlc).mpr hcount⟩
    · simp only [foldl_count, Nat.zero_add, if_neg hl]
      norm_num

/-- `hard_match_education` stays in the unit interval. -/
lemma hardMatchEducation_bounds (resume_education jd_education : List String) :
    0 ≤ FeatureEngineer.hardMatchEducation resume_education jd_education
    ∧ FeatureEngineer.hardMatchEducation resume_education jd_education ≤ 1 := by
  rw [FeatureEngineer.hardMatchEducation]
  by_cases h : resume_education = [] ∨ jd_education = []
  · rw [if_pos h]; norm_num
  · rw [if_neg h]
    have hj : jd_education ≠ [] := fun hh => h (Or.inr hh)
    have hl : 0 < jd_education.length := List.length_pos.mpr hj
    have hlc : (0 : ℚ) < (jd_education.length : ℚ) := by exact_mod_cast hl
    simp only [if_pos hj]
    have hcount : ((jd_education.map pyLower).countP fun jd_edu =>
          (resume_education.map pyLower).any fun resume_edu =>
            strIn jd_edu resume_edu || strIn resume_edu jd_edu)
        ≤ jd_education.length := by
      calc _ ≤ (jd_education.map pyLower).length := List.countP_le_length _
        _ = jd_education.length := List.length_map _ _
    refine ⟨div_nonneg (Nat.cast_nonneg _) (Nat.cast_nonneg _), (div_le_one hlc).mpr ?_⟩
    exact_mod_cast hcount

/-- `hard_match_experience` stays in the unit interval. -/
lemma hardMatchExperience_bounds (resume_years jd_years : Option ℕ) :
    0 ≤ FeatureEngineer.hardMatchExperience resume_years jd_years
    ∧ FeatureEngineer.hardMatchExperience resume_years jd_years ≤ 1 := by
  match resume_years, jd_years with
  | none, none => exact ⟨le_refl 0, by show (0 : ℚ) ≤ 1; norm_num⟩
  | none, some _ => exact ⟨le_refl 0, by show (0 : ℚ) ≤ 1; norm_num⟩
  | some _, none => exact ⟨le_refl 0, by show (0 : ℚ) ≤ 1; norm_num⟩
  | some resume_y, some jd_y =>
    rw [FeatureEngineer.hardMatchExperience]
    by_cases hge : resume_y ≥ jd_y
    · rw [if_pos hge]; norm_num
    · rw [if_neg hge]
      have hlt : resume_y < jd_y := Nat.lt_of_not_le hge
      have hj : (0 : ℚ) < (jd_y : ℚ) := by
        exact_mod_cast Nat.lt_of_le_of_lt (Nat.zero_le resume_y) hlt
      exact ⟨div_nonneg (Nat.cast_nonneg _) (Nat.cast_nonneg _),
        (div_le_one hj).mpr (by exact_mod_cast Nat.le_of_lt hlt)⟩

/-- `hard_match_keywords` stays in the unit interval whenever the cosine
primitive does. -/
lemma hardMatchKeywords_bounds (L : ExternalLibs)
    (hcos : ∀ x y : List ℚ, 0 ≤ L.cosine_similarity x y ∧ L.cosine_similarity x y ≤ 1)
    (resume_text jd_text : String) :
    0 ≤ FeatureEngineer.hardMatchKeywords L resume_text jd_text
    ∧ FeatureEngineer.hardMatchKeywords L resume_text jd_text ≤ 1 := by
  rw [FeatureEngineer.hardMatchKeywords]
  by_cases hv : FeatureEngineer.buildVocabulary L.tokenize resume_text jd_text = []
  · rw [if_pos hv]; norm_num
  · rw [if_neg hv]; exact hcos _ _

/-- `soft_match_semantic` stays in the unit interval whenever the cosine
primitive does. -/
lemma softMatchSemantic_bounds (L : ExternalLibs)
    (hcos : ∀ x y : List ℚ, 0 ≤ L.cosine_similarity x y ∧ L.cosine_similarity x y ≤ 1)
    (resume_text jd_text : String) :
    0 ≤ FeatureEngineer.softMatchSemantic L resume_text jd_text
    ∧ FeatureEngineer.softMatchSemantic L resume_text jd_text ≤ 1 := by
  rw [FeatureEngineer.softMatchSemantic]
  rcases h1 : FeatureEngineer.getEmbedding L resume_text with _ | v1 <;>
    rcases h2 : FeatureEngineer.getEmbedding L jd_text with _ | v2 <;>
    simp only []
  · norm_num
  · norm_num
  · norm_num
  · exact hcos v1 v2

/-- The guarded mean at the end of `soft_match_sections` stays in the unit
interval when every collected score does. -/
lemma mean_clamped (l : List ℚ) (h : ∀ x ∈ l, 0 ≤ x ∧ x ≤ 1) :
    0 ≤ (if l.isEmpty then (0 : ℚ) else l.sum / (l.length : ℚ))
    ∧ (if l.isEmpty then (0 : ℚ) else l.sum / (l.length : ℚ)) ≤ 1 := by
  by_cases hie : l.isEmpty = true
  · simp only [if_pos hie]; norm_num
  · simp only [if_neg hie]
    have hne : l ≠ [] := fun hh => hie (by simp [hh])
    have hlc : (0 : ℚ) < (l.length : ℚ) := by exact_mod_cast List.length_pos.mpr hne
    constructor
    · exact div_nonneg (qsum_nonneg l fun x hx => (h x hx).1) (le_of_lt hlc)
    · exact (div_le_one hlc).mpr (qsum_le_length l fun x hx => (h x hx).2)

/-- `soft_match_sections` stays in the unit interval whenever the cosine
primitive does. -/
lemma softMatchSections_bounds (L : ExternalLibs)
    (hcos : ∀ x y : List ℚ, 0 ≤ L.cosine_similarity x y ∧ L.cosine_similarity x y ≤ 1)
    (resume_sections jd_sections : Sections) :
    0 ≤ FeatureEngineer.softMatchSections L resume_sections jd_sections
    ∧ FeatureEngineer.softMatchSections L resume_sections jd_sections ≤ 1 := by
  rw [FeatureEngineer.softMatchSections]
  by_cases he : (resume_sections.isEmptyMap || jd_sections.isEmptyMap) = true
  · rw [if_pos he]; norm_num
  · rw [if_neg he]
    refine mean_clamped _ ?_
    intro x hx
    rcases List.mem_filterMap.mp hx with ⟨⟨p1, p2⟩, _, hp⟩
    rcases p1 with _ | a
    · simp at hp
    · rcases p2 with _ | b
      · simp at hp
      · have hx' : FeatureEngineer.softMatchSemantic L a b = x := by
          simpa using hp
        rw [← hx']
        exact softMatchSemantic_bounds L hcos a b

/-- `calculate_hard_match_score` stays in the unit interval whenever the
cosine primitive does. -/
lemma calculateHardMatchScore_bounds (L : ExternalLibs)
    (hcos : ∀ x y : List ℚ, 0 ≤ L.cosine_similarity x y ∧ L.cosine_similarity x y ≤ 1)
    (resume_data jd_data : ProfileData) :
    0 ≤ FeatureEngineer.calculateHardMatchScore L resume_data jd_data
    ∧ FeatureEngineer.calculateHardMatchScore L resume_data jd_data ≤ 1 := by
  have hs := hardMatchSkills_bounds L resume_data.skills jd_data.skills
  have he := hardMatchEducation_bounds resume_data.education jd_data.education
  have hx := hardMatchExperience_bounds resume_data.experience_years jd_data.experience_years
  have hk := hardMatchKeywords_bounds L hcos resume_data.cleaned_text jd_data.cleaned_text
  rw [FeatureEngineer.calculateHardMatchScore]
  simp only [FeatureEngineer.hardKeys, FeatureEngineer.weights, FeatureEngineer.componentScores,
    List.map_cons, List.map_nil, List.sum_cons, List.sum_nil]
  constructor
  · refine le_min (by nlinarith [hs.1, he.1, hx.1, hk.1]) (by norm_num)
  · exact min_le_right _ _

/-- `calculate_soft_match_score` stays in the unit interval whenever the
cosine primitive does. -/
lemma calculateSoftMatchScore_bounds (L : ExternalLibs)
    (hcos : ∀ x y : List ℚ, 0 ≤ L.cosine_similarity x y ∧ L.cosine_similarity x y ≤ 1)
    (resume_data jd_data : ProfileData) :
    0 ≤ FeatureEngineer.calculateSoftMatchScore L resume_data jd_data
    ∧ FeatureEngineer.calculateSoftMatchScore L resume_data jd_data ≤ 1 := by
  have ho := softMatchSemantic_bounds L hcos resume_data.cleaned_text jd_data.cleaned_text
  have hsec := softMatchSections_bounds L hcos resume_data.sections jd_data.sections
  rw [FeatureEngineer.calculateSoftMatchScore]
  constructor
  · nlinarith [ho.1, hsec.1]
  · nlinarith [ho.2, hsec.2, ho.1, hsec.1]

/-- Claim C3: for every input pair (and any cosine primitive confined to the
unit interval, as both library cosines over their nonnegative tf-idf /
near-normalised embedding vectors are assumed to be), the hard, soft and
final scores of `calculate_final_score` all lie in `[0, 1]`. -/
theorem scores_within_unit_interval (L : ExternalLibs)
    (hcos : ∀ x y : List ℚ, 0 ≤ L.cosine_similarity x y ∧ L.cosine_similarity x y ≤ 1)
    (resume_data jd_data : ProfileData) :
    (0 ≤ (FeatureEngineer.calculateFinalScore L resume_data jd_data).hard_match_score
      ∧ (FeatureEngineer.calculateFinalScore L resume_data jd_data).hard_match_score ≤ 1)
    ∧ (0 ≤ (FeatureEngineer.calculateFinalScore L resume_data jd_data).soft_match_score
      ∧ (FeatureEngineer.calculateFinalScore L resume_data jd_data).soft_match_score ≤ 1)
    ∧ (0 ≤ (FeatureEngineer.calculateFinalScore L resume_data jd_data).final_score
      ∧ (FeatureEngineer.calculateFinalScore L resume_data jd_data).final_score ≤ 1) := by
  have hh := calculateHardMatchScore_bounds L hcos resume_data jd_data
  have hs := calculateSoftMatchScore_bounds L hcos resume_data jd_data
  refine ⟨hh, hs, ?_, ?_⟩
  · show 0 ≤ 0.6 * FeatureEngineer.calculateHardMatchScore L resume_data jd_data
      + 0.4 * FeatureEngineer.calculateSoftMatchScore L resume_data jd_data
    nlinarith [hh.1, hs.1]
  · show 0.6 * FeatureEngineer.calculateHardMatchScore L resume_data jd_data
      + 0.4 * FeatureEngineer.calculateSoftMatchScore L resume_data jd_data ≤ 1
    nlinarith [hh.2, hs.2, hh.1, hs.1]

/-- Witness for C3 at concrete primitives and profiles. -/
theorem scores_within_unit_interval_witness :
    (0 ≤ (FeatureEngineer.calculateFinalScore sampleLibs sampleResume sampleJD).hard_match_score
      ∧ (FeatureEngineer.calculateFinalScore sampleLibs sampleResume sampleJD).hard_match_score ≤ 1)
    ∧ (0 ≤ (FeatureEngineer.calculateFinalScore sampleLibs sampleResume sampleJD).soft_match_score
      ∧ (FeatureEngineer.calculateFinalScore sampleLibs sampleResume sampleJD).soft_match_score ≤ 1)
    ∧ (0 ≤ (FeatureEngineer.calculateFinalScore sampleLibs sampleResume sampleJD).final_score
      ∧ (FeatureEngineer.calculateFinalScore sampleLibs sampleResume sampleJD).final_score ≤ 1) :=
  scores_within_unit_interval sampleLibs
    (fun x y => ⟨le_refl 0, by show (0 : ℚ) ≤ 1; norm_num⟩) sampleResume sampleJD

/-! ### Batch loop lemmas -/

/-- The inner loop of `run_matching` appends, in order, the rows of the pairs
whose matcher succeeded. -/
lemma runMatching_inner {α β γ E : Type} (f : α → β → Except E γ) (resume : α)
    (jd_processed : List β) (acc : List γ) :
    jd_processed.foldl (fun results jd =>
        match f resume jd with
        | .ok row => results ++ [row]
        | .error _ => results) acc
      = acc ++ jd_processed.filterMap fun jd => (f resume jd).toOption := by
  induction jd_processed generalizing acc with
  | nil => simp
  | cons j t ih =>
    rcases h : f resume j with e | v
    · simp only [List.foldl_cons, h, List.filterMap_cons, Except.toOption, ih]
    · simp only [List.foldl_cons, h, List.filterMap_cons, Except.toOption, ih,
        List.append_assoc, List.singleton_append]

/-- `run_matching` collects exactly the successful rows, resume-major. -/
lemma runMatching_eq {α β γ E : Type} (f : α → β → Except E γ)
    (resume_processed : List α) (jd_processed : List β) :
    Pipeline.runMatching f resume_processed jd_processed
      = resume_processed.flatMap fun resume =>
          jd_processed.filterMap fun jd => (f resume jd).toOption := by
  rw [Pipeline.runMatching]
  suffices h : ∀ acc : List γ, resume_processed.foldl (fun results resume =>
      jd_processed.foldl (fun results jd =>
        match f resume jd with
        | .ok row => results ++ [row]
        | .error _ => results) results) acc
      = acc ++ resume_processed.flatMap fun resume =>
          jd_processed.filterMap fun jd => (f resume jd).toOption by
    simpa using h []
  intro acc
  induction resume_processed generalizing acc with
  | nil => simp
  | cons r t ih =>
    rw [List.foldl_cons, runMatching_inner, ih, List.flatMap_cons, List.append_assoc]

/-- Successes collected from one resume count the `ok` pairs. -/
lemma filterMap_toOption_length {β γ E : Type} (g : β → Except E γ) (jd_processed : List β) :
    (jd_processed.filterMap fun jd => (g jd).toOption).length
      = jd_processed.countP fun jd => (g jd).isOk := by
  induction jd_processed with
  | nil => rfl
  | cons j t ih =>
    rcases h : g j with e | v
    · have htoOpt : (g j).toOption = none := by rw [h]; rfl
      have hisOk : (g j).isOk = false := by rw [h]; rfl
      simp [List.filterMap_cons, List.countP_cons, htoOpt, hisOk, ih]
    · have htoOpt : (g j).toOption = some v := by rw [h]; rfl
      have hisOk : (g j).isOk = true := by rw [h]; rfl
      simp [List.filterMap_cons, List.countP_cons, htoOpt, hisOk, ih]

/-- The loop visits `N * M` pairs. -/
lemma allPairs_length {α β : Type} (resume_processed : List α) (jd_processed : List β) :
    (Pipeline.allPairs resume_processed jd_processed).length
      = resume_processed.length * jd_processed.length := by
  rw [Pipeline.allPairs]
  induction resume_processed with
  | nil => simp
  | cons r t ih => simp [List.flatMap_cons, ih, Nat.succ_mul, Nat.add_comm]

/-- Counting over the pair list distributes over the resume-major structure. -/
lemma allPairs_countP {α β : Type} (p : α × β → Bool)
    (resume_processed : List α) (jd_processed : List β) :
    (Pipeline.allPairs resume_processed jd_processed).countP p
      = (resume_processed.map fun resume =>
          jd_processed.countP fun jd => p (resume, jd)).sum := by
  rw [Pipeline.allPairs]
  induction resume_processed with
  | nil => simp
  | cons r t ih =>
    simp only [List.flatMap_cons, List.countP_append, List.countP_map, ih,
      List.map_cons, List.sum_cons]
    rfl

/-- Successes and failures partition the visited pairs. -/
lemma countP_not_split {α : Type} (p : α → Bool) (l : List α) :
    l.countP p + l.countP (fun a => !p a) = l.length := by
  induction l with
  | nil => rfl
  | cons a t ih =>
    cases h : p a <;> (simp [List.countP_cons, h]; omega)

/-- Claim C9: `run_matching` never lets a per-pair exception escape — it
returns one row per pair whose matcher succeeded, so when exactly one of the
`N * M` pairs raises, the batch still returns `N * M - 1` rows; the failure
count reaches the caller only as the shortfall of the partial result list. -/
theorem batch_matching_partial_results {α β γ E : Type} (f : α → β → Except E γ)
    (resume_processed : List α) (jd_processed : List β) :
    (Pipeline.runMatching f resume_processed jd_processed).length
        = (Pipeline.allPairs resume_processed jd_processed).countP (fun p => (f p.1 p.2).isOk)
    ∧ ((Pipeline.allPairs resume_processed jd_processed).countP
          (fun p => !(f p.1 p.2).isOk) = 1 →
        (Pipeline.runMatching f resume_processed jd_processed).length
          = resume_processed.length * jd_processed.length - 1) := by
  have hlen : (Pipeline.runMatching f resume_processed jd_processed).length
      = (Pipeline.allPairs resume_processed jd_processed).countP (fun p => (f p.1 p.2).isOk) := by
    rw [runMatching_eq, List.length_flatMap, allPairs_countP]
    exact congrArg List.sum (List.map_congr_left fun resume _ => by
      exact filterMap_toOption_length (f resume) jd_processed)
  refine ⟨hlen, fun hone => ?_⟩
  have hsplit := countP_not_split (fun p : α × β => (f p.1 p.2).isOk)
    (Pipeline.allPairs resume_processed jd_processed)
  rw [allPairs_length] at hsplit
  omega

/-- Witness for C9: two resumes against two requirements with exactly one
raising pair yield `2 * 2 - 1 = 3` rows. -/
theorem batch_matching_partial_results_witness :
    (Pipeline.runMatching failingPair [0, 1] [0, 1]).length = 2 * 2 - 1 :=
  (batch_matching_partial_results failingPair [0, 1] [0, 1]).2 (by decide)

end ResumeRelevance
